import Mathlib

/-!
Verification development for the `agent-os` repository (three C++ sources:
`agent.cpp`, `code-agent.cpp`, `agent-view.cpp`).

The code is shallowly embedded: file contents, commands and model responses
are `List Char`; `std::string::find` is `strFind`/`strFindFrom`; the
filesystem state relevant to one operation is `Option (List Char)` (the
content of the file at the operation's path, `none` when it cannot be
opened); external collaborators (the shell, the model backend, the viewer,
the confirmation dialog) are parameters.  Definitions in namespace `Agent`
are translated from `agent.cpp`, those in namespace `CodeAgent` from
`code-agent.cpp`.
-/

/-- Model of `std::string::find(pat)`: index of the first occurrence of
`pat` in `hay`, `none` standing for `npos` (an empty pattern is found at
index 0, as in C++). -/
def strFind : List Char → List Char → Option Nat
  | [], pat => if pat.isPrefixOf [] then some 0 else none
  | a :: t, pat =>
    if pat.isPrefixOf (a :: t) then some 0 else (strFind t pat).map (· + 1)

/-- Model of `std::string::find(pat, start)`: first occurrence at index
`≥ start`, absolute index returned. -/
def strFindFrom (hay pat : List Char) (start : Nat) : Option Nat :=
  (strFind (hay.drop start) pat).map (· + start)

/-- Model of `s.find(pat) != npos` (substring containment). -/
def strContains (hay pat : List Char) : Bool :=
  (strFind hay pat).isSome

/-- Workspace guard (`is_in_workspace`, identical in `agent.cpp` lines 85-92 and
`code-agent.cpp` lines 137-146): the (realpath-resolved, or for unresolvable
paths literal) path must start with the effective workspace root.  Both
branches of the C++ function are the same textual prefix test; resolution by
`realpath` is abstracted away, `path` stands for the compared path. -/
def is_in_workspace (root path : List Char) : Bool :=
  root.isPrefixOf path

/-- `failed_commands`: `std::map<std::string,int>` from exact command string to
failure count, as an association list. -/
abbrev Tracker := List (List Char × Nat)

/-- Reading `failed_commands[cmd]`: the stored count, `operator[]`'s default 0
when absent. -/
def lookupTr : Tracker → List Char → Nat
  | [], _ => 0
  | (k, v) :: t, c => if k = c then v else lookupTr t c

/-- `failed_commands[cmd]++`: increment the stored count, inserting the
default-0 entry first when absent. -/
def bumpTr : Tracker → List Char → Tracker
  | [], c => [(c, 1)]
  | (k, v) :: t, c => if k = c then (k, v + 1) :: t else (k, v) :: bumpTr t c

/-- Result of one `run_command` call: the returned text, whether a shell
process was actually spawned (`popen` reached), and the updated
`failed_commands` map.  The shell collaborator's combined stdout+stderr and
exit status are passed in as `out`/`status`. -/
structure RunResult where
  output : List Char
  spawned : Bool
  tracker : Tracker
deriving DecidableEq

/-- Output cap shared by both variants: above 8000 bytes the result is
truncated with a marker (`agent.cpp` lines 276-278, `code-agent.cpp`
lines 285-287). -/
def truncate_output (r : List Char) : List Char :=
  if 8000 < r.length then r.take 8000 ++ "\n[Output truncated...]".data else r

namespace Agent

/-- Failure heuristic of `agent.cpp` `run_command` (line 272): nonzero exit
status or the substring "No such file" in the combined output. -/
def run_failed (status : Int) (out : List Char) : Bool :=
  !(status == 0) || strContains out "No such file".data

/-- `run_command` from `agent.cpp` lines 257-280: skip when the command has
already failed twice, otherwise spawn the shell, cap the output and count the
failure.  There is no deny-list in this variant. -/
def run_command (tr : Tracker) (status : Int) (out : List Char) (cmd : List Char) :
    RunResult :=
  if 2 ≤ lookupTr tr cmd then
    ⟨"[Error: Command failed multiple times, skipping]".data, false, tr⟩
  else
    ⟨truncate_output out, true, if run_failed status out then bumpTr tr cmd else tr⟩

end Agent

namespace CodeAgent

/-- Deny-listed substrings of `code-agent.cpp` `run_command` lines 253-258. -/
def denied_patterns : List (List Char) :=
  ["rm -rf".data, "sudo".data, "chmod".data, "chown".data, "dd ".data, "> /".data]

/-- The security check of `code-agent.cpp` `run_command`: any deny-listed
pattern occurring anywhere in the command string. -/
def is_denied (cmd : List Char) : Bool :=
  denied_patterns.any (fun p => strContains cmd p)

/-- Failure heuristic of `code-agent.cpp` `run_command` (lines 278-280):
nonzero exit status or one of the substrings "No such file", "not found",
"Error" in the combined output. -/
def run_failed (status : Int) (out : List Char) : Bool :=
  !(status == 0) || strContains out "No such file".data ||
    strContains out "not found".data || strContains out "Error".data

/-- `run_command` from `code-agent.cpp` lines 250-289: reject deny-listed
commands outright, skip commands that failed twice, otherwise spawn the
shell, count failures and cap the output. -/
def run_command (tr : Tracker) (status : Int) (out : List Char) (cmd : List Char) :
    RunResult :=
  if is_denied cmd then
    ⟨"[Error: Command not allowed for security reasons]".data, false, tr⟩
  else if 2 ≤ lookupTr tr cmd then
    ⟨"[Error: Command failed multiple times, skipping to prevent loop]".data, false, tr⟩
  else
    ⟨truncate_output out, true, if run_failed status out then bumpTr tr cmd else tr⟩

end CodeAgent

/-- A `<change>` block (`struct Change`, identical in both sources). -/
structure Change where
  file : List Char
  old_text : List Char
  new_text : List Char
  description : List Char
deriving DecidableEq

/-- The front-trimming while loop of `parse_changes`
(`while (!s.empty() && s[0] == newline) s.erase(0, 1)`). -/
def trimNLfront (s : List Char) : List Char :=
  s.dropWhile (fun c => c == '\n')

/-- The back-trimming while loop of `parse_changes`
(`while (!s.empty() && s.back() == newline) s.pop_back()`). -/
def trimNLback (s : List Char) : List Char :=
  (s.reverse.dropWhile (fun c => c == '\n')).reverse

/-- Both trims as applied to each of `old_text`/`new_text` by
`parse_changes` (`agent.cpp` lines 411-414, `code-agent.cpp` 392-395). -/
def trimNL (s : List Char) : List Char :=
  trimNLback (trimNLfront s)

/-- C++ `resp.substr(start, stop - start)` where the count `stop - start` is
computed in `size_t`: when `stop < start` the count wraps to a huge value and
`substr` clamps it, yielding the whole suffix from `start`. -/
def substrWrap (resp : List Char) (start stop : Nat) : List Char :=
  if start ≤ stop then (resp.drop start).take (stop - start) else resp.drop start

namespace Agent

/-- `read_file` from `agent.cpp` lines 213-225: no workspace check; an
unopenable file yields an inline error string; contents above 8000 bytes are
truncated with a plain marker carrying no byte count.  `f` is the content of
the file at `path` (`none` when it cannot be opened). -/
def read_file (path : List Char) (f : Option (List Char)) : List Char :=
  match f with
  | none => "[Error] Cannot read file: ".data ++ path
  | some content =>
    if 8000 < content.length then
      content.take 8000 ++ "\n[... truncated ...]".data
    else content

/-- `write_file` from `agent.cpp` lines 235-241: create parent directories and
overwrite-write the content.  No workspace check of any kind; parent-directory
creation and stream opening are idealised as succeeding. -/
def write_file (path : List Char) (f : Option (List Char)) (content : List Char) :
    (Bool × Option (List Char)) :=
  (true, some content)

/-- `delete_path` from `agent.cpp` lines 294-302: stat the path (missing →
failure), ask the external confirmation dialog, then remove.  No workspace
check of any kind. -/
def delete_path (path : List Char) (statOk confirmed : Bool) (f : Option (List Char)) :
    (Bool × Option (List Char)) :=
  if !statOk then (false, f)
  else if !confirmed then (false, f)
  else (true, none)

/-- `apply_change` from `agent.cpp` lines 425-441: re-read the file
(truncating!), empty `old_text` means create, unreadable file or unmatched
`old_text` fail without writing, otherwise replace the first occurrence in
the re-read content and write that back. -/
def apply_change (f : Option (List Char)) (c : Change) : (Bool × Option (List Char)) :=
  let content := read_file c.file f
  if c.old_text.isEmpty then write_file c.file f c.new_text
  else if "[Error]".data.isPrefixOf content then (false, f)
  else
    match strFind content c.old_text with
    | none => (false, f)
    | some pos =>
      write_file c.file f
        (content.take pos ++ c.new_text ++ content.drop (pos + c.old_text.length))

end Agent

namespace CodeAgent

/-- The truncation marker of `code-agent.cpp` `read_file` (lines 194-195):
`"\n[... truncated, " + std::to_string(n) + " more bytes ...]"`. -/
def truncation_marker (n : Nat) : List Char :=
  "\n[... truncated, ".data ++ (Nat.repr n).data ++ " more bytes ...]".data

/-- `read_file` from `code-agent.cpp` lines 181-198: guarded by the workspace
check; an unopenable file yields the empty string; contents above 4000 bytes
are truncated with a marker stating the number of elided bytes.  `root` is
the effective workspace, `f` the content of the file at `path`. -/
def read_file (root path : List Char) (f : Option (List Char)) : List Char :=
  if !(is_in_workspace root path) then "[Error: Path outside workspace]".data
  else
    match f with
    | none => []
    | some content =>
      if 4000 < content.length then
        content.take 4000 ++ truncation_marker (content.length - 4000)
      else content

/-- `write_file` from `code-agent.cpp` lines 212-228: reject paths outside the
workspace without touching the filesystem, otherwise create parents and
overwrite-write (both idealised as succeeding). -/
def write_file (root path : List Char) (f : Option (List Char)) (content : List Char) :
    (Bool × Option (List Char)) :=
  if is_in_workspace root path then (true, some content) else (false, f)

/-- `apply_change` from `code-agent.cpp` lines 410-431: re-read the file
(truncating!), empty content with nonempty `old_text` fails, empty `old_text`
means create, unmatched `old_text` fails without writing, otherwise replace
the first occurrence in the re-read content and write back via the guarded
`write_file`. -/
def apply_change (root : List Char) (f : Option (List Char)) (c : Change) :
    (Bool × Option (List Char)) :=
  let content := read_file root c.file f
  if content.isEmpty && !c.old_text.isEmpty then (false, f)
  else if c.old_text.isEmpty then write_file root c.file f c.new_text
  else
    match strFind content c.old_text with
    | none => (false, f)
    | some pos =>
      write_file root c.file f
        (content.take pos ++ c.new_text ++ content.drop (pos + c.old_text.length))

end CodeAgent

namespace Agent

/-- `extract_tag_content` from `agent.cpp` lines 361-370.  Quirk kept from the
source: when no `>` follows the opening tag, `text.find(">", start)` is
`npos` and `npos + 1` wraps to 0 in `size_t`, so the content scan restarts at
index 0. -/
def extract_tag_content (text tag : List Char) : List Char :=
  match strFindFrom text ('<' :: tag) 0 with
  | none => []
  | some start =>
    let content_start :=
      match strFindFrom text ['>'] start with
      | none => 0
      | some i => i + 1
    match strFindFrom text ('<' :: '/' :: (tag ++ ['>'])) content_start with
    | none => []
    | some e => (text.drop content_start).take (e - content_start)

/-- `extract_attribute` from `agent.cpp` lines 372-382.  Quirks kept from the
source: a missing `>` makes `substr(start, npos - start)` clamp to the whole
suffix, and a missing closing quote makes the final `substr` clamp to the
suffix after `attr="`. -/
def extract_attribute (text tag attr : List Char) : List Char :=
  match strFindFrom text ('<' :: tag) 0 with
  | none => []
  | some start =>
    let tag_content :=
      match strFindFrom text ['>'] start with
      | none => text.drop start
      | some tagEnd => (text.drop start).take (tagEnd - start)
    match strFindFrom tag_content (attr ++ ('=' :: ['"'])) 0 with
    | none => []
    | some a0 =>
      let attr_start := a0 + attr.length + 2
      match strFindFrom tag_content ['"'] attr_start with
      | none => tag_content.drop attr_start
      | some attr_end => (tag_content.drop attr_start).take (attr_end - attr_start)

end Agent

/-- `parse_changes` (identical in `agent.cpp` lines 384-423 and
`code-agent.cpp` lines 355-407), as the loop body from scan position `pos`.
The loop terminates because `pos` strictly increases past each `</change>`;
`fuel` (one unit per loop iteration, `resp.length + 1` at the top entry) only
makes that explicit and is never exhausted, since each iteration moves `pos`
past a `</change>` occurrence within `resp`.
Quirks kept from the source: when `file="` is absent the `size_t` expression
`npos + 6` wraps to 5 and the file name is scraped from index 5; the
`old`/`new`/`description` close tags are searched from the block start, so a
close tag before its open tag makes the `size_t` count wrap and `substr`
clamp to the suffix (`substrWrap`); `old_text`/`new_text` are newline-trimmed
on both ends; blocks with an empty scraped file name are dropped; a missing
`</change>` ends the scan after the current block. -/
def parse_changes_go (resp : List Char) : Nat → Nat → List Change
  | _, 0 => []
  | pos, fuel + 1 =>
    match strFindFrom resp "<change".data pos with
    | none => []
    | some p =>
      let file :=
        match strFindFrom resp "file=\"".data p with
        | none =>
          -- npos + 6 wraps to 5 in size_t
          match strFindFrom resp ['"'] 5 with
          | none => resp.drop 5
          | some fe => substrWrap resp 5 fe
        | some fi =>
          match strFindFrom resp ['"'] (fi + 6) with
          | none => resp.drop (fi + 6)
          | some fe => substrWrap resp (fi + 6) fe
      let description :=
        match strFindFrom resp "<description>".data p,
            strFindFrom resp "</description>".data p with
        | some ds, some de => substrWrap resp (ds + 13) de
        | _, _ => []
      let old_raw :=
        match strFindFrom resp "<old>".data p, strFindFrom resp "</old>".data p with
        | some os, some oe => substrWrap resp (os + 5) oe
        | _, _ => []
      let new_raw :=
        match strFindFrom resp "<new>".data p, strFindFrom resp "</new>".data p with
        | some ns, some ne => substrWrap resp (ns + 5) ne
        | _, _ => []
      let c : Change := ⟨file, trimNL old_raw, trimNL new_raw, description⟩
      let rest :=
        match strFindFrom resp "</change>".data p with
        | none => []
        | some q => parse_changes_go resp (q + 1) fuel
      if file.isEmpty then rest else c :: rest

/-- `parse_changes` on a whole response (scan starts at 0). -/
def parse_changes (resp : List Char) : List Change :=
  parse_changes_go resp 0 (resp.length + 1)

/-- The caller-side multi-occurrence scan shared by the `<list>`, bare
`<read>` and `<run>` loops of `process_tools` (`agent.cpp` lines 476-515):
repeatedly find `<name>`, then `</name>`, take the text in between, continue
after the close tag; an unterminated occurrence ends the scan.  As in
`parse_changes_go`, `fuel` only makes the strict advance of `pos`
explicit and is never exhausted when it starts at `resp.length + 1`. -/
def scanPairs_go (resp name : List Char) : Nat → Nat → List (List Char)
  | _, 0 => []
  | pos, fuel + 1 =>
    match strFindFrom resp ('<' :: (name ++ ['>'])) pos with
    | none => []
    | some p =>
      match strFindFrom resp ('<' :: '/' :: (name ++ ['>'])) p with
      | none => []
      | some e =>
        substrWrap resp (p + (name.length + 2)) e
          :: scanPairs_go resp name (e + (name.length + 3)) fuel

/-- The multi-occurrence scan on a whole response. -/
def scanPairs (resp name : List Char) (pos : Nat) : List (List Char) :=
  scanPairs_go resp name pos (resp.length + 1)

namespace Agent

/-- One executed directive, recorded in source order as `process_tools` runs.
This trace of side-effecting calls is the observable execution order of the
directives of one response. -/
inductive ToolEvent where
  | readAttr (path : List Char)
  | list (path : List Char)
  | readBare (path : List Char)
  | run (cmd : List Char)
  | create (path content : List Char)
  | edit (path old new : List Char)
  | gui (html : List Char)
  | url (u : List Char)
  | del (path : List Char)
  | change (c : Change)
deriving DecidableEq

/-- The executor collaborators invoked by `process_tools`, over an abstract
effect state `σ` (filesystem, `failed_commands`, spawned processes).  Each
field stands for the corresponding function of `agent.cpp` (`read_file`,
`list_directory`, `run_command`, `write_file`, `edit_file`, `delete_path`,
`apply_change`), whose detailed models are given separately; here only the
text (or success bit) they return matters. -/
structure Env (σ : Type) where
  readF : σ → List Char → σ × List Char
  listF : σ → List Char → σ × List Char
  runF : σ → List Char → σ × List Char
  writeF : σ → List Char → List Char → σ × Bool
  editF : σ → List Char → List Char → List Char → σ × Bool
  deleteF : σ → List Char → σ × Bool
  applyF : σ → Change → σ × Bool

/-- The `<list>` loop of `process_tools` (lines 476-486), executing each
scanned path in order. -/
def phase_list {σ : Type} (env : Env σ) : List (List Char) → σ → σ × List Char × List ToolEvent
  | [], s => (s, [], [])
  | path :: rest, s =>
    let r := env.listF s path
    let t := phase_list env rest r.1
    (t.1, "Directory ".data ++ path ++ ":\n".data ++ r.2 ++ "\n".data ++ t.2.1,
      .list path :: t.2.2)

/-- The bare `<read>` loop of `process_tools` (lines 488-502): load into
context unless the read errored, always report the file as loaded. -/
def phase_readBare {σ : Type} (env : Env σ) :
    List (List Char) → σ → List Char → σ × List Char × List Char × List ToolEvent
  | [], s, ctx => (s, ctx, [], [])
  | path :: rest, s, ctx =>
    let r := env.readF s path
    let ctx1 :=
      if "[Error]".data.isPrefixOf r.2 then ctx
      else ctx ++ "\n--- ".data ++ path ++ " ---\n".data ++ r.2 ++ "\n".data
    let t := phase_readBare env rest r.1 ctx1
    (t.1, t.2.1, "File ".data ++ path ++ " loaded\n".data ++ t.2.2.1,
      .readBare path :: t.2.2.2)

/-- The `<run>` loop of `process_tools` (lines 504-515). -/
def phase_run {σ : Type} (env : Env σ) : List (List Char) → σ → σ × List Char × List ToolEvent
  | [], s => (s, [], [])
  | cmd :: rest, s =>
    let r := env.runF s cmd
    let t := phase_run env rest r.1
    (t.1, "$ ".data ++ cmd ++ "\n".data ++ r.2 ++ "\n".data ++ t.2.1,
      .run cmd :: t.2.2)

/-- The `<change>` loop of `process_tools` (lines 574-584): apply each parsed
change; only successful applications add to the result text. -/
def phase_changes {σ : Type} (env : Env σ) : List Change → σ → σ × List Char × List ToolEvent
  | [], s => (s, [], [])
  | c :: rest, s =>
    let r := env.applyF s c
    let t := phase_changes env rest r.1
    (t.1,
      (if r.2 then "[Applied change to ".data ++ c.file ++ "]\n".data else []) ++ t.2.1,
      .change c :: t.2.2)

/-- Result of one `process_tools` call: aggregated tool output, updated
context, updated effect state and the trace of executed directives. -/
structure PTOut (σ : Type) where
  out : List Char
  ctx : List Char
  st : σ
  trace : List ToolEvent

/-- `process_tools` from `agent.cpp` lines 460-587.  The attribute-form
`<read path="..."/>` block comes first and RETURNS EARLY when present with a
nonempty path, skipping every other directive of the response; otherwise the
directives run in the fixed source order `<list>`, bare `<read>`, `<run>`,
`<create>`, `<edit>`, `<gui>`, `<url>`, `<delete>`, `<change>` blocks, and
their results are concatenated (`<gui>` contributes no result text). -/
def process_tools {σ : Type} (env : Env σ) (resp ctx : List Char) (s : σ) : PTOut σ :=
  let rpath := extract_attribute resp "read".data "path".data
  if strContains resp "<read".data && !rpath.isEmpty then
    let r := env.readF s rpath
    { out := "[Read ".data ++ rpath ++ "]\n".data ++ r.2 ++ "\n".data,
      ctx := ctx ++ "\n--- ".data ++ rpath ++ " ---\n".data ++ r.2 ++ "\n".data,
      st := r.1, trace := [.readAttr rpath] }
  else
    let pl := phase_list env (scanPairs resp "list".data 0) s
    let pr := phase_readBare env (scanPairs resp "read".data 0) pl.1 ctx
    let pu := phase_run env (scanPairs resp "run".data 0) pr.1
    let cpath := extract_attribute resp "create".data "path".data
    let ccontent := extract_tag_content resp "create".data
    let pc : σ × List Char × List ToolEvent :=
      if strContains resp "<create".data && !cpath.isEmpty then
        let w := env.writeF pu.1 cpath ccontent
        (w.1,
          (if w.2 then "[Created ".data ++ cpath ++ "]\n".data
           else "[Error creating ".data ++ cpath ++ "]\n".data),
          [.create cpath ccontent])
      else (pu.1, [], [])
    let epath := extract_attribute resp "edit".data "path".data
    let eblock := extract_tag_content resp "edit".data
    let eold := extract_tag_content eblock "old".data
    let enew := extract_tag_content eblock "new".data
    let pe : σ × List Char × List ToolEvent :=
      if strContains resp "<edit".data && !epath.isEmpty && !eold.isEmpty then
        let w := env.editF pc.1 epath eold enew
        (w.1,
          (if w.2 then "[Edited ".data ++ epath ++ "]\n".data
           else "[Error editing ".data ++ epath ++ "]\n".data),
          [.edit epath eold enew])
      else (pc.1, [], [])
    let ghtml := extract_tag_content resp "gui".data
    let tg : List ToolEvent :=
      if strContains resp "<gui>".data && !ghtml.isEmpty then [.gui ghtml] else []
    let uurl := extract_tag_content resp "url".data
    let pu2 : List Char × List ToolEvent :=
      if strContains resp "<url>".data && !uurl.isEmpty then
        ("[Opening ".data ++ uurl ++ "]\n".data, [.url uurl])
      else ([], [])
    let dpath := extract_attribute resp "delete".data "path".data
    let pd : σ × List Char × List ToolEvent :=
      if strContains resp "<delete".data && !dpath.isEmpty then
        let w := env.deleteF pe.1 dpath
        (w.1,
          (if w.2 then "[Deleted ".data ++ dpath ++ "]\n".data
           else "[Delete cancelled/failed: ".data ++ dpath ++ "]\n".data),
          [.del dpath])
      else (pe.1, [], [])
    let pch := phase_changes env (parse_changes resp) pd.1
    { out := pl.2.1 ++ pr.2.2.1 ++ pu.2.1 ++ pc.2.1 ++ pe.2.1 ++ pu2.1 ++ pd.2.1 ++ pch.2.1,
      ctx := pr.2.1, st := pch.1,
      trace := pl.2.2 ++ pr.2.2.2 ++ pu.2.2 ++ pc.2.2 ++ pe.2.2 ++ tg ++ pu2.2 ++
        pd.2.2 ++ pch.2.2 }

end Agent

namespace Agent

/-- The multi-turn tool loop of `agent.cpp` `main` lines 752-785
(`for (int turn = 0; turn < 10; turn++)`), entered with nonempty tool output.
Each iteration feeds back tool results, gets the next model response from the
`responses` collaborator and re-runs `process_tools`; empty tool output
displays the response (tag stripping not modelled) and stops.  Returns the
number of turns executed and the displayed final text, `none` when the loop
exhausts its 10 turns: the source prints nothing in that case. -/
def chat_loop {σ : Type} (env : Env σ) (responses : Nat → List Char) :
    Nat → List Char → σ → Nat → Nat × Option (List Char)
  | turn, _, _, 0 => (turn, none)
  | turn, ctx, s, fuel + 1 =>
    let r := process_tools env (responses turn) ctx s
    if r.out.isEmpty then (turn + 1, some (responses turn))
    else chat_loop env responses (turn + 1) r.ctx r.st fuel

/-- The chat tool loop with the source's turn bound of 10. -/
def chat_run {σ : Type} (env : Env σ) (responses : Nat → List Char)
    (ctx : List Char) (s : σ) : Nat × Option (List Char) :=
  chat_loop env responses 0 ctx s 10

/-- The clear/reset branch of `agent.cpp` `main` lines 712-720: session
state, as reset together in one step (transcript-log deletion is external). -/
structure Session where
  conversation_history : List Char
  context : List Char
  active_project_dir : List Char
  failed_commands : Tracker
deriving DecidableEq

/-- `agent.cpp`'s clear: `conversation_history.clear(); context.clear();
active_project_dir = ""; failed_commands.clear();` — all four at once. -/
def clear_session (s : Session) : Session :=
  { conversation_history := [], context := [], active_project_dir := [],
    failed_commands := [] }

end Agent

namespace CodeAgent

/-- The clear/reset branches of `code-agent.cpp` `main` (lines 561-570 and
576-585): session state with the same four components. -/
structure Session where
  context : List Char
  history : List Char
  active_project_dir : List Char
  failed_commands : Tracker
deriving DecidableEq

/-- `code-agent.cpp`'s clear: `context.clear(); history.clear();
active_project_dir = "";` — `failed_commands` is NOT cleared in either
branch. -/
def clear_session (s : Session) : Session :=
  { s with context := [], history := [], active_project_dir := [] }

/-- The `/analyze` multi-turn loop of `code-agent.cpp` `main` lines 649-764:
`for (turn = 0; turn < max_turns && !analysis_complete; turn++)` with
`max_turns = 20`.  The body (model call, tool execution, ANALYSIS.md
creation) is collapsed into the collaborator `completes`, true when turn `t`
sets `analysis_complete` (an ANALYSIS.md change applied, or a toolless
response mentioning completion).  Returns turns executed and the final
`analysis_complete` flag. -/
def analyze_loop (completes : Nat → Bool) : Nat → Nat → Nat × Bool
  | turn, 0 => (turn, false)
  | turn, fuel + 1 =>
    if completes turn then (turn + 1, true)
    else analyze_loop completes (turn + 1) fuel

/-- The `/analyze` loop with the source's `max_turns = 20`. -/
def analyze_run (completes : Nat → Bool) : Nat × Bool :=
  analyze_loop completes 0 20

/-- The message printed after the `/analyze` loop (lines 758-764): a
completion banner, or the turn-limit report when the loop exhausted its
turns. -/
def analyze_report (completes : Nat → Bool) : List Char :=
  if (analyze_run completes).2 then "ANALYSIS COMPLETE".data
  else "Analysis reached turn limit. Check results.".data

end CodeAgent

namespace Agent

/-- The `<list>` directives a response holds, in scan order. -/
def listEvents (resp : List Char) : List ToolEvent :=
  (scanPairs resp "list".data 0).map ToolEvent.list

/-- The bare-form `<read>` directives a response holds, in scan order. -/
def bareReadEvents (resp : List Char) : List ToolEvent :=
  (scanPairs resp "read".data 0).map ToolEvent.readBare

/-- The `<run>` directives a response holds, in scan order. -/
def runEvents (resp : List Char) : List ToolEvent :=
  (scanPairs resp "run".data 0).map ToolEvent.run

/-- The (at most one) `<create>` directive `process_tools` executes. -/
def createEvents (resp : List Char) : List ToolEvent :=
  if strContains resp "<create".data &&
      !(extract_attribute resp "create".data "path".data).isEmpty then
    [.create (extract_attribute resp "create".data "path".data)
      (extract_tag_content resp "create".data)]
  else []

/-- The (at most one) `<edit>` directive `process_tools` executes. -/
def editEvents (resp : List Char) : List ToolEvent :=
  if strContains resp "<edit".data &&
      !(extract_attribute resp "edit".data "path".data).isEmpty &&
      !(extract_tag_content (extract_tag_content resp "edit".data) "old".data).isEmpty then
    [.edit (extract_attribute resp "edit".data "path".data)
      (extract_tag_content (extract_tag_content resp "edit".data) "old".data)
      (extract_tag_content (extract_tag_content resp "edit".data) "new".data)]
  else []

/-- The (at most one) `<gui>` directive `process_tools` executes. -/
def guiEvents (resp : List Char) : List ToolEvent :=
  if strContains resp "<gui>".data && !(extract_tag_content resp "gui".data).isEmpty then
    [.gui (extract_tag_content resp "gui".data)]
  else []

/-- The (at most one) `<url>` directive `process_tools` executes. -/
def urlEvents (resp : List Char) : List ToolEvent :=
  if strContains resp "<url>".data && !(extract_tag_content resp "url".data).isEmpty then
    [.url (extract_tag_content resp "url".data)]
  else []

/-- The (at most one) `<delete>` directive `process_tools` executes. -/
def deleteEvents (resp : List Char) : List ToolEvent :=
  if strContains resp "<delete".data &&
      !(extract_attribute resp "delete".data "path".data).isEmpty then
    [.del (extract_attribute resp "delete".data "path".data)]
  else []

/-- The `<change>` blocks a response holds, in scan order. -/
def changeEvents (resp : List Char) : List ToolEvent :=
  (parse_changes resp).map ToolEvent.change

end Agent

/-- A concrete executor environment over the trivial effect state, used to
evaluate `process_tools` and the chat loop on concrete responses: every
collaborator returns fixed text or success. -/
def envU : Agent.Env Unit :=
  { readF := fun s _ => (s, "C".data), listF := fun s _ => (s, "L".data),
    runF := fun s _ => (s, "ok".data), writeF := fun s _ _ => (s, true),
    editF := fun s _ _ _ => (s, true), deleteF := fun s _ => (s, true),
    applyF := fun s _ => (s, true) }

/-- A model-response stream that asks to run a command on every turn. -/
def runForeverResponses : Nat → List Char :=
  fun _ => "<run>x</run>".data

-- ============ Supporting lemmas ============

theorem isPrefixOf_length {l₁ l₂ : List Char} (h : l₁.isPrefixOf l₂ = true) :
    l₁.length ≤ l₂.length := by
  induction l₁ generalizing l₂ with
  | nil => simp
  | cons a t ih =>
    cases l₂ with
    | nil => simp [List.isPrefixOf] at h
    | cons b t2 =>
      simp only [List.isPrefixOf, Bool.and_eq_true] at h
      simpa using ih h.2

theorem strFind_le {hay pat : List Char} {i : Nat} (h : strFind hay pat = some i) :
    i ≤ hay.length := by
  induction hay generalizing i with
  | nil =>
    rw [strFind] at h
    split at h
    · simp_all
    · simp at h
  | cons a t ih =>
    rw [strFind] at h
    split at h
    · simp_all
      omega
    · simp only [Option.map_eq_some'] at h
      obtain ⟨j, hj, rfl⟩ := h
      have := ih hj
      simp
      omega

theorem strFind_bound {hay pat : List Char} {i : Nat} (h : strFind hay pat = some i) :
    i + pat.length ≤ hay.length := by
  induction hay generalizing i with
  | nil =>
    rw [strFind] at h
    split at h
    · rename_i hp
      have := isPrefixOf_length hp
      simp_all
    · simp at h
  | cons a t ih =>
    rw [strFind] at h
    split at h
    · rename_i hp
      have := isPrefixOf_length hp
      simp_all
      omega
    · simp only [Option.map_eq_some'] at h
      obtain ⟨j, hj, rfl⟩ := h
      have := ih hj
      simp only [List.length_cons]
      omega

theorem strFindFrom_ge {hay pat : List Char} {start i : Nat}
    (h : strFindFrom hay pat start = some i) : start ≤ i := by
  simp only [strFindFrom, Option.map_eq_some'] at h
  obtain ⟨j, _, rfl⟩ := h
  omega

theorem strFindFrom_bound {hay pat : List Char} {start i : Nat}
    (h : strFindFrom hay pat start = some i) (hp : pat ≠ []) :
    i + pat.length ≤ hay.length := by
  simp only [strFindFrom, Option.map_eq_some'] at h
  obtain ⟨j, hj, rfl⟩ := h
  have hb := strFind_bound hj
  have hl : (hay.drop start).length = hay.length - start := by simp
  have hplen : 1 ≤ pat.length := by
    cases pat with
    | nil => exact absurd rfl hp
    | cons a t => simp
  omega

theorem lookupTr_bumpTr_self (tr : Tracker) (c : List Char) :
    lookupTr (bumpTr tr c) c = lookupTr tr c + 1 := by
  induction tr with
  | nil => simp [bumpTr, lookupTr]
  | cons kv t ih =>
    obtain ⟨k, v⟩ := kv
    by_cases h : k = c <;> simp [bumpTr, lookupTr, h, ih]

theorem lookupTr_bumpTr_ne (tr : Tracker) {c c' : List Char} (h : c' ≠ c) :
    lookupTr (bumpTr tr c) c' = lookupTr tr c' := by
  induction tr with
  | nil => simp [bumpTr, lookupTr, (by simpa using Ne.symm h : ¬ c = c')]
  | cons kv t ih =>
    obtain ⟨k, v⟩ := kv
    by_cases hk : k = c
    · subst hk
      simp [bumpTr, lookupTr, (by simpa using Ne.symm h : ¬ k = c')]
    · by_cases hk' : k = c'
      · subst hk'
        simp [bumpTr, lookupTr, hk]
      · simp [bumpTr, lookupTr, hk, hk', ih]

theorem strFind_prefix_eq {hay pat : List Char} (h : pat.isPrefixOf hay = true) :
    strFind hay pat = some 0 := by
  cases hay with
  | nil => rw [strFind]; simp [h]
  | cons a t => rw [strFind]; simp [h]

theorem isEmpty_append_left_ne {l m : List Char} (h : l ≠ []) : (l ++ m).isEmpty = false := by
  cases l with
  | nil => exact absurd rfl h
  | cons a t => simp

theorem replicate_char_ne_nil {n : Nat} {a : Char} (h : 0 < n) : List.replicate n a ≠ [] := by
  intro he
  have := congrArg List.length he
  simp only [List.length_replicate, List.length_nil] at this
  omega

/-- Workspace-guarded reads pass the content through unchanged when it is at
or below the 4000-byte cap. -/
theorem codeAgent_read_file_small {root path content : List Char}
    (hg : is_in_workspace root path = true) (hlen : content.length ≤ 4000) :
    CodeAgent.read_file root path (some content) = content := by
  rw [CodeAgent.read_file, hg]
  simp only [Bool.not_true, Bool.false_eq_true, if_false]
  rw [if_neg (by omega)]

/-- Workspace-guarded reads of oversized contents yield the 4000-byte prefix
followed by the counted truncation marker. -/
theorem codeAgent_read_file_big {root path content : List Char}
    (hg : is_in_workspace root path = true) (hlen : 4000 < content.length) :
    CodeAgent.read_file root path (some content) =
      content.take 4000 ++ CodeAgent.truncation_marker (content.length - 4000) := by
  rw [CodeAgent.read_file, hg]
  simp only [Bool.not_true, Bool.false_eq_true, if_false]
  rw [if_pos hlen]

/-- The match-found success path of `code-agent.cpp` `apply_change`: with a
nonempty `old_text` found at index `i` of the (re-read, possibly truncated)
content, the first occurrence is replaced and the result written back through
the guarded `write_file`. -/
theorem codeAgent_apply_change_found (root : List Char) (f : Option (List Char)) (c : Change)
    {i : Nat}
    (hold : c.old_text.isEmpty = false)
    (hcne : (CodeAgent.read_file root c.file f).isEmpty = false)
    (hfind : strFind (CodeAgent.read_file root c.file f) c.old_text = some i) :
    CodeAgent.apply_change root f c =
      CodeAgent.write_file root c.file f
        ((CodeAgent.read_file root c.file f).take i ++ c.new_text ++
          (CodeAgent.read_file root c.file f).drop (i + c.old_text.length)) := by
  rw [CodeAgent.apply_change]
  simp only [hold, hcne, hfind, Bool.not_false, Bool.false_and, Bool.and_false,
    Bool.false_eq_true, if_false]

theorem dropWhile_head_not_newline {l : List Char} {a : Char}
    (h : (l.dropWhile (fun c => c == '\n')).head? = some a) : a ≠ '\n' := by
  induction l with
  | nil => simp [List.dropWhile] at h
  | cons b t ih =>
    rw [List.dropWhile] at h
    by_cases hb : (b == '\n') = true
    · rw [hb] at h
      exact ih h
    · rw [Bool.not_eq_true] at hb
      rw [hb] at h
      simp only [List.head?_cons, Option.some.injEq] at h
      subst h
      simpa using hb

theorem trimNLback_prefix_self (u : List Char) : trimNLback u <+: u := by
  have h1 : u.reverse.dropWhile (fun c => c == '\n') <:+ u.reverse :=
    List.dropWhile_suffix _
  have h2 := List.reverse_prefix.mpr h1
  rwa [List.reverse_reverse] at h2

theorem head_eq_of_prefix {l u : List Char} {a : Char} (h : l <+: u) (ha : l.head? = some a) :
    u.head? = some a := by
  obtain ⟨t, rfl⟩ := h
  cases l with
  | nil => simp at ha
  | cons b r => simpa using ha

theorem trimNL_head_ne {s : List Char} {a : Char} (h : (trimNL s).head? = some a) :
    a ≠ '\n' := by
  have hu := head_eq_of_prefix (trimNLback_prefix_self (trimNLfront s)) h
  exact dropWhile_head_not_newline hu

theorem trimNL_getLast_ne {s : List Char} {a : Char} (h : (trimNL s).getLast? = some a) :
    a ≠ '\n' := by
  rw [trimNL, trimNLback, List.getLast?_reverse] at h
  exact dropWhile_head_not_newline h

theorem parse_changes_go_trimmed (resp : List Char) :
    ∀ fuel pos c, c ∈ parse_changes_go resp pos fuel →
      (∃ o, c.old_text = trimNL o) ∧ ∃ n, c.new_text = trimNL n := by
  intro fuel
  induction fuel with
  | zero =>
    intro pos c hc
    simp [parse_changes_go] at hc
  | succ fuel ih =>
    intro pos c hc
    rw [parse_changes_go] at hc
    split at hc
    · simp at hc
    · dsimp only [] at hc
      split at hc
      · split at hc
        · simp at hc
        · exact ih _ c hc
      · rcases List.mem_cons.1 hc with rfl | hc2
        · exact ⟨⟨_, rfl⟩, ⟨_, rfl⟩⟩
        · split at hc2
          · simp at hc2
          · exact ih _ c hc2

theorem phase_list_trace {σ : Type} (env : Agent.Env σ) (ps : List (List Char)) (s : σ) :
    (Agent.phase_list env ps s).2.2 = ps.map Agent.ToolEvent.list := by
  induction ps generalizing s with
  | nil => simp [Agent.phase_list]
  | cons p rest ih => simp [Agent.phase_list, ih]

theorem phase_readBare_trace {σ : Type} (env : Agent.Env σ) (ps : List (List Char)) (s : σ)
    (ctx : List Char) :
    (Agent.phase_readBare env ps s ctx).2.2.2 = ps.map Agent.ToolEvent.readBare := by
  induction ps generalizing s ctx with
  | nil => simp [Agent.phase_readBare]
  | cons p rest ih => simp [Agent.phase_readBare, ih]

theorem phase_run_trace {σ : Type} (env : Agent.Env σ) (ps : List (List Char)) (s : σ) :
    (Agent.phase_run env ps s).2.2 = ps.map Agent.ToolEvent.run := by
  induction ps generalizing s with
  | nil => simp [Agent.phase_run]
  | cons p rest ih => simp [Agent.phase_run, ih]

theorem phase_changes_trace {σ : Type} (env : Agent.Env σ) (cs : List Change) (s : σ) :
    (Agent.phase_changes env cs s).2.2 = cs.map Agent.ToolEvent.change := by
  induction cs generalizing s with
  | nil => simp [Agent.phase_changes]
  | cons c rest ih => simp [Agent.phase_changes, ih]

theorem chat_loop_le {σ : Type} (env : Agent.Env σ) (responses : Nat → List Char) :
    ∀ (fuel turn : Nat) (ctx : List Char) (s : σ),
      (Agent.chat_loop env responses turn ctx s fuel).1 ≤ turn + fuel := by
  intro fuel
  induction fuel with
  | zero =>
    intro turn ctx s
    rw [Agent.chat_loop]
    simp
  | succ fuel ih =>
    intro turn ctx s
    rw [Agent.chat_loop]
    split
    · simp
    · exact le_trans (ih (turn + 1) _ _) (by omega)

theorem analyze_loop_never (completes : Nat → Bool) (h : ∀ t, completes t = false) :
    ∀ fuel turn, CodeAgent.analyze_loop completes turn fuel = (turn + fuel, false) := by
  intro fuel
  induction fuel with
  | zero =>
    intro turn
    rw [CodeAgent.analyze_loop]
    simp
  | succ fuel ih =>
    intro turn
    rw [CodeAgent.analyze_loop, h turn]
    simp only [Bool.false_eq_true, if_false]
    rw [ih]
    congr 1
    omega

-- ============ Claim theorems ============

/-- Claim C1 (counterexample): the claim fails on `agent.cpp` — for the path
`/etc/passwd`, which lies outside the workspace root `/root/workspace`,
`agent.cpp`'s `write_file` overwrites the file anyway and `delete_path`
(with a present file and a confirming dialog) removes it anyway: neither
consults `is_in_workspace` before mutating the filesystem. -/
theorem c1_agent_mutators_skip_guard :
    is_in_workspace "/root/workspace".data "/etc/passwd".data = false ∧
    Agent.write_file "/etc/passwd".data (some "old".data) "new".data = (true, some "new".data) ∧
    Agent.delete_path "/etc/passwd".data true true (some "data".data) = (true, none) := by
  decide

/-- Claim C1 (amended): in `code-agent.cpp` every filesystem mutation goes
through `write_file`, which checks `is_in_workspace` against the effective
root first: a path outside the root is rejected with the file untouched, a
path inside is written; in particular `apply_change` on a file outside the
root never modifies it.  In `agent.cpp`, `write_file` and `delete_path`
perform no workspace check at all (see the counterexample). -/
theorem c1_code_agent_guard :
    (∀ root path f content, is_in_workspace root path = false →
      CodeAgent.write_file root path f content = (false, f)) ∧
    (∀ root path f content, is_in_workspace root path = true →
      CodeAgent.write_file root path f content = (true, some content)) ∧
    (∀ root f c, is_in_workspace root c.file = false →
      (CodeAgent.apply_change root f c).2 = f) := by
  refine ⟨?_, ?_, ?_⟩
  · intro root path f content h
    rw [CodeAgent.write_file, h]
    simp
  · intro root path f content h
    rw [CodeAgent.write_file, h]
    simp
  · intro root f c h
    rw [CodeAgent.apply_change]
    have hrd : CodeAgent.read_file root c.file f = "[Error: Path outside workspace]".data := by
      rw [CodeAgent.read_file.eq_def, h]
      simp
    rw [hrd]
    by_cases he : c.old_text.isEmpty = true
    · simp only [he, (by decide : ("[Error: Path outside workspace]".data).isEmpty = false),
        Bool.false_and, Bool.false_eq_true, if_false, if_true]
      rw [CodeAgent.write_file, h]
      simp
    · rw [Bool.not_eq_true] at he
      simp only [he, (by decide : ("[Error: Path outside workspace]".data).isEmpty = false),
        Bool.false_and, Bool.false_eq_true, if_false]
      cases hf : strFind "[Error: Path outside workspace]".data c.old_text with
      | none => simp
      | some pos =>
        simp only []
        rw [CodeAgent.write_file, h]
        simp

/-- Claim C1 (witness): the guard statements of `c1_code_agent_guard` at
concrete paths inside and outside `/root/workspace`. -/
theorem c1_code_agent_guard_witness :
    CodeAgent.write_file "/root/workspace".data "/etc/x".data (some "o".data) "n".data =
      (false, some "o".data) ∧
    CodeAgent.write_file "/root/workspace".data "/root/workspace/x".data (some "o".data)
      "n".data = (true, some "n".data) ∧
    (CodeAgent.apply_change "/root/workspace".data (some "o".data)
      ⟨"/etc/x".data, "z".data, "n".data, []⟩).2 = some "o".data :=
  ⟨c1_code_agent_guard.1 "/root/workspace".data "/etc/x".data (some "o".data) "n".data
      (by decide),
    c1_code_agent_guard.2.1 "/root/workspace".data "/root/workspace/x".data (some "o".data)
      "n".data (by decide),
    c1_code_agent_guard.2.2 "/root/workspace".data (some "o".data)
      ⟨"/etc/x".data, "z".data, "n".data, []⟩ (by decide)⟩

/-- Claim C2 (code bug, failing input): `code-agent.cpp`'s `apply_change` on a
4001-byte file inside the workspace with `oldText = "aaa"`, `newText = "b"`:
`read_file` truncates the content to its first 4000 bytes plus the marker
`"\n[... truncated, 1 more bytes ...]"`, the replace runs on that truncated
text and `write_file` writes it back.  The "successful" apply thus reports
`true` but loses the file's tail and embeds the marker, instead of producing
the complete replacement `"b" ++ 3998 more bytes`. -/
theorem c2_truncated_apply_corrupts :
    (CodeAgent.apply_change "/root/workspace".data (some (List.replicate 4001 'a'))
        ⟨"/root/workspace/big.txt".data, "aaa".data, "b".data, []⟩).1 = true ∧
    (CodeAgent.apply_change "/root/workspace".data (some (List.replicate 4001 'a'))
        ⟨"/root/workspace/big.txt".data, "aaa".data, "b".data, []⟩).2 =
      some ("b".data ++ List.replicate 3997 'a' ++ CodeAgent.truncation_marker 1) ∧
    (CodeAgent.apply_change "/root/workspace".data (some (List.replicate 4001 'a'))
        ⟨"/root/workspace/big.txt".data, "aaa".data, "b".data, []⟩).2 ≠
      some ("b".data ++ List.replicate 3998 'a') := by
  have hg : is_in_workspace "/root/workspace".data "/root/workspace/big.txt".data = true := by
    decide
  have hmin : (4000 : Nat) ⊓ 4001 = 4000 := by omega
  have hread : CodeAgent.read_file "/root/workspace".data "/root/workspace/big.txt".data
      (some (List.replicate 4001 'a')) =
      List.replicate 4000 'a' ++ CodeAgent.truncation_marker 1 := by
    rw [codeAgent_read_file_big hg (by rw [List.length_replicate]; omega)]
    rw [List.length_replicate, List.take_replicate, hmin]
  have hsplit : List.replicate 4000 'a' = List.replicate 3 'a' ++ List.replicate 3997 'a' := by
    rw [← List.replicate_add]
  have hpre : ("aaa".data).isPrefixOf
      (List.replicate 4000 'a' ++ CodeAgent.truncation_marker 1) = true := by
    rw [List.isPrefixOf_iff_prefix, (by decide : "aaa".data = List.replicate 3 'a')]
    exact ⟨List.replicate 3997 'a' ++ CodeAgent.truncation_marker 1,
      by rw [← List.append_assoc, ← hsplit]⟩
  have hfind : strFind (CodeAgent.read_file "/root/workspace".data
      "/root/workspace/big.txt".data (some (List.replicate 4001 'a'))) "aaa".data = some 0 := by
    rw [hread]
    exact strFind_prefix_eq hpre
  have hcne : (CodeAgent.read_file "/root/workspace".data
      "/root/workspace/big.txt".data (some (List.replicate 4001 'a'))).isEmpty = false := by
    rw [hread]
    exact isEmpty_append_left_ne (replicate_char_ne_nil (by omega))
  have happ := codeAgent_apply_change_found "/root/workspace".data
    (some (List.replicate 4001 'a'))
    ⟨"/root/workspace/big.txt".data, "aaa".data, "b".data, []⟩
    (by decide) hcne hfind
  rw [hread] at happ
  rw [List.take_zero, List.nil_append, (by decide : (0 + ("aaa".data).length) = 3),
    List.drop_append_of_le_length (by rw [List.length_replicate]; omega),
    List.drop_replicate, (by norm_num : 4000 - 3 = 3997), CodeAgent.write_file, hg] at happ
  rw [if_pos rfl] at happ
  refine ⟨by rw [happ], ?_, ?_⟩
  · rw [happ]
    simp only [List.append_assoc]
  · rw [happ]
    intro h
    simp only [Option.some.injEq] at h
    have hlen := congrArg List.length h
    simp only [List.length_append, List.length_replicate] at hlen
    have hm : (CodeAgent.truncation_marker 1).length = 34 := by decide
    have hb : ("b".data).length = 1 := by decide
    omega

/-- Claim C3 (counterexample): the claim fails on `agent.cpp` — its
`run_command` has no deny-list, so `rm -rf /` (which matches the deny pattern
`rm -rf` of `code-agent.cpp`) is handed to the shell: a process is spawned
and the output carries no "not allowed for security reasons" message. -/
theorem c3_agent_run_no_denylist :
    CodeAgent.is_denied "rm -rf /".data = true ∧
    (Agent.run_command [] 0 [] "rm -rf /".data).spawned = true ∧
    strContains (Agent.run_command [] 0 [] "rm -rf /".data).output
      "not allowed for security reasons".data = false := by
  decide

/-- Claim C3 (amended): in `code-agent.cpp`, every command containing a
deny-listed pattern is rejected outright: no shell is spawned, the
`failed_commands` map is untouched, and the returned message contains
"not allowed for security reasons".  `agent.cpp`'s `run_command` has no
deny-list and executes such commands (see the counterexample). -/
theorem c3_code_agent_denylist_rejects (tr : Tracker) (status : Int) (out cmd : List Char)
    (h : CodeAgent.is_denied cmd = true) :
    CodeAgent.run_command tr status out cmd =
      ⟨"[Error: Command not allowed for security reasons]".data, false, tr⟩ ∧
    strContains (CodeAgent.run_command tr status out cmd).output
      "not allowed for security reasons".data = true := by
  have e : CodeAgent.run_command tr status out cmd =
      ⟨"[Error: Command not allowed for security reasons]".data, false, tr⟩ := by
    rw [CodeAgent.run_command, if_pos h]
  refine ⟨e, ?_⟩
  rw [e]
  exact (by decide : strContains "[Error: Command not allowed for security reasons]".data
    "not allowed for security reasons".data = true)

/-- Claim C3 (witness): the deny-list rejection at the concrete command
`rm -rf /` with an empty failure map. -/
theorem c3_code_agent_denylist_witness :
    CodeAgent.run_command [] 0 [] "rm -rf /".data =
      ⟨"[Error: Command not allowed for security reasons]".data, false, []⟩ ∧
    strContains (CodeAgent.run_command [] 0 [] "rm -rf /".data).output
      "not allowed for security reasons".data = true :=
  c3_code_agent_denylist_rejects [] 0 [] "rm -rf /".data (by decide)

/-- Claim C4: in both variants, after two failing executions of exactly the
command string `cmd` (counted from a zero entry), a third submission of `cmd`
is short-circuited: `run_command` returns the skip message without spawning a
shell and without touching the map further; and the two failures leave every
other command string's count unchanged — the `failed_commands` map is keyed
on the exact command string.  For `code-agent.cpp` the command must not be
deny-listed, otherwise it is rejected before ever executing. -/
theorem c4_exact_command_short_circuit :
    (∀ (tr : Tracker) (cmd : List Char) (s1 s2 s3 : Int) (o1 o2 o3 : List Char),
      lookupTr tr cmd = 0 → Agent.run_failed s1 o1 = true → Agent.run_failed s2 o2 = true →
      (Agent.run_command tr s1 o1 cmd).spawned = true ∧
      (Agent.run_command (Agent.run_command tr s1 o1 cmd).tracker s2 o2 cmd).spawned = true ∧
      Agent.run_command
          (Agent.run_command (Agent.run_command tr s1 o1 cmd).tracker s2 o2 cmd).tracker
          s3 o3 cmd =
        ⟨"[Error: Command failed multiple times, skipping]".data, false,
          (Agent.run_command (Agent.run_command tr s1 o1 cmd).tracker s2 o2 cmd).tracker⟩ ∧
      ∀ cmd2, cmd2 ≠ cmd →
        lookupTr (Agent.run_command (Agent.run_command tr s1 o1 cmd).tracker s2 o2 cmd).tracker
          cmd2 = lookupTr tr cmd2) ∧
    (∀ (tr : Tracker) (cmd : List Char) (s1 s2 s3 : Int) (o1 o2 o3 : List Char),
      CodeAgent.is_denied cmd = false → lookupTr tr cmd = 0 →
      CodeAgent.run_failed s1 o1 = true → CodeAgent.run_failed s2 o2 = true →
      (CodeAgent.run_command tr s1 o1 cmd).spawned = true ∧
      (CodeAgent.run_command (CodeAgent.run_command tr s1 o1 cmd).tracker s2 o2 cmd).spawned =
        true ∧
      CodeAgent.run_command
          (CodeAgent.run_command
            (CodeAgent.run_command tr s1 o1 cmd).tracker s2 o2 cmd).tracker s3 o3 cmd =
        ⟨"[Error: Command failed multiple times, skipping to prevent loop]".data, false,
          (CodeAgent.run_command
            (CodeAgent.run_command tr s1 o1 cmd).tracker s2 o2 cmd).tracker⟩ ∧
      ∀ cmd2, cmd2 ≠ cmd →
        lookupTr (CodeAgent.run_command
          (CodeAgent.run_command tr s1 o1 cmd).tracker s2 o2 cmd).tracker cmd2 =
          lookupTr tr cmd2) := by
  constructor
  · intro tr cmd s1 s2 s3 o1 o2 o3 h0 hf1 hf2
    have e1 : Agent.run_command tr s1 o1 cmd = ⟨truncate_output o1, true, bumpTr tr cmd⟩ := by
      rw [Agent.run_command, if_neg (by omega), hf1, if_pos rfl]
    have l1 : lookupTr (bumpTr tr cmd) cmd = 1 := by
      rw [lookupTr_bumpTr_self, h0]
    have e2 : Agent.run_command (bumpTr tr cmd) s2 o2 cmd =
        ⟨truncate_output o2, true, bumpTr (bumpTr tr cmd) cmd⟩ := by
      rw [Agent.run_command, if_neg (by omega), hf2, if_pos rfl]
    have l2 : lookupTr (bumpTr (bumpTr tr cmd) cmd) cmd = 2 := by
      rw [lookupTr_bumpTr_self, l1]
    have e3 : Agent.run_command (bumpTr (bumpTr tr cmd) cmd) s3 o3 cmd =
        ⟨"[Error: Command failed multiple times, skipping]".data, false,
          bumpTr (bumpTr tr cmd) cmd⟩ := by
      rw [Agent.run_command, if_pos (by omega)]
    refine ⟨by rw [e1], by rw [e1, e2], by rw [e1, e2]; exact e3, ?_⟩
    intro cmd2 hne
    rw [e1, e2]
    show lookupTr (bumpTr (bumpTr tr cmd) cmd) cmd2 = lookupTr tr cmd2
    rw [lookupTr_bumpTr_ne _ hne, lookupTr_bumpTr_ne _ hne]
  · intro tr cmd s1 s2 s3 o1 o2 o3 hd h0 hf1 hf2
    have e1 : CodeAgent.run_command tr s1 o1 cmd =
        ⟨truncate_output o1, true, bumpTr tr cmd⟩ := by
      rw [CodeAgent.run_command, if_neg (by simp [hd]), if_neg (by omega), hf1, if_pos rfl]
    have l1 : lookupTr (bumpTr tr cmd) cmd = 1 := by
      rw [lookupTr_bumpTr_self, h0]
    have e2 : CodeAgent.run_command (bumpTr tr cmd) s2 o2 cmd =
        ⟨truncate_output o2, true, bumpTr (bumpTr tr cmd) cmd⟩ := by
      rw [CodeAgent.run_command, if_neg (by simp [hd]), if_neg (by omega), hf2, if_pos rfl]
    have l2 : lookupTr (bumpTr (bumpTr tr cmd) cmd) cmd = 2 := by
      rw [lookupTr_bumpTr_self, l1]
    have e3 : CodeAgent.run_command (bumpTr (bumpTr tr cmd) cmd) s3 o3 cmd =
        ⟨"[Error: Command failed multiple times, skipping to prevent loop]".data, false,
          bumpTr (bumpTr tr cmd) cmd⟩ := by
      rw [CodeAgent.run_command, if_neg (by simp [hd]), if_pos (by omega)]
    refine ⟨by rw [e1], by rw [e1, e2], by rw [e1, e2]; exact e3, ?_⟩
    intro cmd2 hne
    rw [e1, e2]
    show lookupTr (bumpTr (bumpTr tr cmd) cmd) cmd2 = lookupTr tr cmd2
    rw [lookupTr_bumpTr_ne _ hne, lookupTr_bumpTr_ne _ hne]

/-- Claim C4 (witness): the third submission of the concrete command `foo`
after two failing runs (exit status 1) is short-circuited in both variants. -/
theorem c4_short_circuit_witness :
    Agent.run_command
        (Agent.run_command (Agent.run_command [] 1 [] "foo".data).tracker 1 [] "foo".data).tracker
        0 [] "foo".data =
      ⟨"[Error: Command failed multiple times, skipping]".data, false,
        (Agent.run_command (Agent.run_command [] 1 [] "foo".data).tracker 1 []
          "foo".data).tracker⟩ ∧
    CodeAgent.run_command
        (CodeAgent.run_command
          (CodeAgent.run_command [] 1 [] "foo".data).tracker 1 [] "foo".data).tracker
        0 [] "foo".data =
      ⟨"[Error: Command failed multiple times, skipping to prevent loop]".data, false,
        (CodeAgent.run_command
          (CodeAgent.run_command [] 1 [] "foo".data).tracker 1 [] "foo".data).tracker⟩ :=
  ⟨(c4_exact_command_short_circuit.1 [] "foo".data 1 1 0 [] [] []
      (by decide) (by decide) (by decide)).2.2.1,
    (c4_exact_command_short_circuit.2 [] "foo".data 1 1 0 [] [] []
      (by decide) (by decide) (by decide) (by decide)).2.2.1⟩

/-- Claim C5 (counterexample): the claim fails on `code-agent.cpp` — its clear
branch resets Context, History and ProjectRoot but leaves `failed_commands`
untouched, so the four are reset independently; in particular a command that
already failed twice (here `make`, count 2) is still short-circuited after
the clear instead of executing again. -/
theorem c5_code_agent_clear_keeps_tracker :
    (CodeAgent.clear_session ⟨"ctx".data, "hist".data, "/proj".data, [("make".data, 2)]⟩
      ).failed_commands = [("make".data, 2)] ∧
    (CodeAgent.run_command
      (CodeAgent.clear_session
        ⟨"ctx".data, "hist".data, "/proj".data, [("make".data, 2)]⟩).failed_commands
      0 [] "make".data).spawned = false ∧
    (CodeAgent.run_command
      (CodeAgent.clear_session
        ⟨"ctx".data, "hist".data, "/proj".data, [("make".data, 2)]⟩).failed_commands
      0 [] "make".data).output =
      "[Error: Command failed multiple times, skipping to prevent loop]".data := by
  decide

/-- Claim C5 (amended): in `agent.cpp` an explicit clear resets conversation
history, context, project directory and `failed_commands` together in one
step, and afterwards any command — in particular one that had failed twice —
spawns the shell again; in `code-agent.cpp` the clear resets Context, History
and ProjectRoot but leaves `failed_commands` unchanged (see the
counterexample). -/
theorem c5_clear_semantics :
    (∀ s : Agent.Session, Agent.clear_session s = ⟨[], [], [], []⟩) ∧
    (∀ (s : Agent.Session) (status : Int) (out cmd : List Char),
      (Agent.run_command (Agent.clear_session s).failed_commands status out cmd).spawned =
        true) ∧
    (∀ s : CodeAgent.Session,
      (CodeAgent.clear_session s).context = [] ∧ (CodeAgent.clear_session s).history = [] ∧
      (CodeAgent.clear_session s).active_project_dir = [] ∧
      (CodeAgent.clear_session s).failed_commands = s.failed_commands) := by
  refine ⟨fun s => rfl, ?_, fun s => ⟨rfl, rfl, rfl, rfl⟩⟩
  intro s status out cmd
  rw [Agent.run_command, if_neg (by simp [Agent.clear_session, lookupTr])]

/-- Claim C5 (witness): `c5_clear_semantics` at a concrete session whose
`make` entry has failed twice. -/
theorem c5_clear_semantics_witness :
    Agent.clear_session ⟨"h".data, "c".data, "/p".data, [("make".data, 2)]⟩ =
      ⟨[], [], [], []⟩ ∧
    (Agent.run_command
      (Agent.clear_session
        ⟨"h".data, "c".data, "/p".data, [("make".data, 2)]⟩).failed_commands
      0 [] "make".data).spawned = true ∧
    (CodeAgent.clear_session
      ⟨"c".data, "h".data, "/p".data, [("make".data, 2)]⟩).failed_commands =
      [("make".data, 2)] :=
  ⟨c5_clear_semantics.1 ⟨"h".data, "c".data, "/p".data, [("make".data, 2)]⟩,
    c5_clear_semantics.2.1 ⟨"h".data, "c".data, "/p".data, [("make".data, 2)]⟩ 0 [] "make".data,
    (c5_clear_semantics.2.2 ⟨"c".data, "h".data, "/p".data, [("make".data, 2)]⟩).2.2.2⟩

/-- Claim C6 (counterexample): the claim fails on `agent.cpp` — for a response
holding both an attribute-form read and a run directive, `process_tools`
executes only the read (the attribute-form read block comes first and returns
early), so the present `<run>ls</run>` directive is never executed and the
claimed priority (List, bare Read, Run before attribute-form Read) does not
hold. -/
theorem c6_attr_read_preempts_all :
    (Agent.process_tools envU "<read path=\"/a\"/><run>ls</run>".data [] ()).trace =
      [.readAttr "/a".data] ∧
    scanPairs "<read path=\"/a\"/><run>ls</run>".data "run".data 0 = ["ls".data] ∧
    Agent.ToolEvent.run "ls".data ∉
      (Agent.process_tools envU "<read path=\"/a\"/><run>ls</run>".data [] ()).trace := by
  decide

/-- Claim C6 (amended): `process_tools` checks the attribute-form read first
and, when it is present with a nonempty path, returns immediately having
executed only that read; otherwise every directive of the response is
executed exactly once, enumerated in the fixed code order List, bare-form
Read, Run, Create, Edit, Gui, Url, Delete, then Change blocks, with the
execution results concatenated in that same order (`<gui>` adds no result
text). -/
theorem c6_fixed_order_execution {σ : Type} (env : Agent.Env σ) (resp ctx : List Char)
    (s : σ) :
    (strContains resp "<read".data = false ∨
        Agent.extract_attribute resp "read".data "path".data = [] →
      (Agent.process_tools env resp ctx s).trace =
        Agent.listEvents resp ++ Agent.bareReadEvents resp ++ Agent.runEvents resp ++
        Agent.createEvents resp ++ Agent.editEvents resp ++ Agent.guiEvents resp ++
        Agent.urlEvents resp ++ Agent.deleteEvents resp ++ Agent.changeEvents resp) ∧
    (strContains resp "<read".data = true →
      Agent.extract_attribute resp "read".data "path".data ≠ [] →
      (Agent.process_tools env resp ctx s).trace =
        [.readAttr (Agent.extract_attribute resp "read".data "path".data)]) := by
  constructor
  · intro h
    have hcond : (strContains resp "<read".data &&
        !(Agent.extract_attribute resp "read".data "path".data).isEmpty) = false := by
      rcases h with h | h
      · simp [h]
      · simp [h]
    simp only [Agent.process_tools, hcond, Bool.false_eq_true, if_false,
      apply_ite (fun t : σ × List Char × List Agent.ToolEvent => t.2.2),
      apply_ite (fun t : σ × List Char × List Agent.ToolEvent => t.1),
      apply_ite (fun t : List Char × List Agent.ToolEvent => t.2),
      phase_list_trace, phase_readBare_trace, phase_run_trace, phase_changes_trace,
      Agent.listEvents, Agent.bareReadEvents, Agent.runEvents, Agent.createEvents,
      Agent.editEvents, Agent.guiEvents, Agent.urlEvents, Agent.deleteEvents,
      Agent.changeEvents, List.append_assoc]
  · intro h1 h2
    have hne : (Agent.extract_attribute resp "read".data "path".data).isEmpty = false := by
      cases he : Agent.extract_attribute resp "read".data "path".data with
      | nil => exact absurd he h2
      | cons a t => simp
    simp only [Agent.process_tools, h1, hne, Bool.not_false, Bool.and_self, if_true]

/-- Claim C6 (witness): the fixed-order enumeration at a concrete response
holding a list and a run directive and no attribute-form read. -/
theorem c6_fixed_order_witness :
    (strContains "<list>/d</list><run>ls</run>".data "<read".data = false ∨
      Agent.extract_attribute "<list>/d</list><run>ls</run>".data "read".data "path".data =
        []) ∧
    (Agent.process_tools envU "<list>/d</list><run>ls</run>".data [] ()).trace =
      Agent.listEvents "<list>/d</list><run>ls</run>".data ++
      Agent.bareReadEvents "<list>/d</list><run>ls</run>".data ++
      Agent.runEvents "<list>/d</list><run>ls</run>".data ++
      Agent.createEvents "<list>/d</list><run>ls</run>".data ++
      Agent.editEvents "<list>/d</list><run>ls</run>".data ++
      Agent.guiEvents "<list>/d</list><run>ls</run>".data ++
      Agent.urlEvents "<list>/d</list><run>ls</run>".data ++
      Agent.deleteEvents "<list>/d</list><run>ls</run>".data ++
      Agent.changeEvents "<list>/d</list><run>ls</run>".data :=
  ⟨Or.inl (by decide),
    (c6_fixed_order_execution envU "<list>/d</list><run>ls</run>".data [] ()).1
      (Or.inl (by decide))⟩

/-- Claim C7 (counterexample): the claim fails on `agent.cpp` — reading a file
of 8001 `a`s yields the 8000-byte prefix followed by the fixed marker
`"\n[... truncated ...]"`, which states no elided-byte count at all: no digit
occurs anywhere in the output. -/
theorem c7_agent_marker_lacks_count :
    Agent.read_file "/root/workspace/f".data (some (List.replicate 8001 'a')) =
      List.replicate 8000 'a' ++ "\n[... truncated ...]".data ∧
    ∀ c ∈ Agent.read_file "/root/workspace/f".data (some (List.replicate 8001 'a')),
      c.isDigit = false := by
  have hmin : (8000 : Nat) ⊓ 8001 = 8000 := by omega
  have key : Agent.read_file "/root/workspace/f".data (some (List.replicate 8001 'a')) =
      List.replicate 8000 'a' ++ "\n[... truncated ...]".data := by
    rw [Agent.read_file]
    simp only [List.length_replicate, List.take_replicate, hmin]
    rw [if_pos (by norm_num)]
  refine ⟨key, ?_⟩
  rw [key]
  have hall : ∀ x ∈ "\n[... truncated ...]".data, x.isDigit = false := by decide
  intro c hc
  rcases List.mem_append.1 hc with h | h
  · rw [List.eq_of_mem_replicate h]
    decide
  · exact hall c h

/-- Claim C7 (amended): in `code-agent.cpp`, for a path inside the workspace
the read output equals the file content exactly when it is at or below the
4000-byte cap; above the cap the output is the 4000-byte prefix followed by
the truncation marker whose stated count is exactly the number of elided
bytes (the content length minus the kept prefix length).  `agent.cpp`'s cap
is 8000 and its marker carries no count (see the counterexample). -/
theorem c7_read_cap_semantics :
    (∀ root path content, is_in_workspace root path = true →
      content.length ≤ 4000 → CodeAgent.read_file root path (some content) = content) ∧
    (∀ root path content, is_in_workspace root path = true → 4000 < content.length →
      CodeAgent.read_file root path (some content) =
        content.take 4000 ++
          CodeAgent.truncation_marker (content.length - (content.take 4000).length)) := by
  refine ⟨fun root path content hg hlen => codeAgent_read_file_small hg hlen, ?_⟩
  intro root path content hg hlen
  rw [codeAgent_read_file_big hg hlen]
  have ht : (content.take 4000).length = 4000 := by
    rw [List.length_take]
    omega
  rw [ht]

/-- Claim C7 (witness): `c7_read_cap_semantics` at a small file (read back
byte-identical) and at a 4001-byte file (truncated with a counted marker). -/
theorem c7_read_cap_witness :
    CodeAgent.read_file "/root/workspace".data "/root/workspace/f".data (some "hello".data) =
      "hello".data ∧
    CodeAgent.read_file "/root/workspace".data "/root/workspace/f".data
        (some (List.replicate 4001 'a')) =
      (List.replicate 4001 'a').take 4000 ++
        CodeAgent.truncation_marker
          ((List.replicate 4001 'a').length - ((List.replicate 4001 'a').take 4000).length) :=
  ⟨c7_read_cap_semantics.1 "/root/workspace".data "/root/workspace/f".data "hello".data
      (by decide) (by decide),
    c7_read_cap_semantics.2 "/root/workspace".data "/root/workspace/f".data
      (List.replicate 4001 'a') (by decide) (by rw [List.length_replicate]; omega)⟩

/-- Claim C8 (counterexample): the claim fails on `agent.cpp` — with a model
that asks to run a command on every turn (so tool output is nonempty every
turn, as the first conjunct shows), the chat tool loop stops after exactly
its 10 turns and displays nothing: no turn-limit report is produced. -/
theorem c8_chat_loop_silent_at_bound :
    Agent.chat_run envU runForeverResponses [] () = (10, none) ∧
    (Agent.process_tools envU (runForeverResponses 0) [] ()).out.isEmpty = false := by
  decide

/-- Claim C8 (amended): every multi-turn tool loop is bounded — the chat loop
of `agent.cpp` executes at most its 10 turns whatever the model and executors
do; and `code-agent.cpp`'s 20-turn `/analyze` loop, when no turn completes
the analysis, stops after exactly 20 turns and reports "Analysis reached turn
limit. Check results.".  The chat loops, by contrast, terminate at their
bound silently (see the counterexample). -/
theorem c8_turn_bounds :
    (∀ (σ : Type) (env : Agent.Env σ) (responses : Nat → List Char)
      (ctx : List Char) (s : σ), (Agent.chat_run env responses ctx s).1 ≤ 10) ∧
    (∀ completes : Nat → Bool, (∀ t, completes t = false) →
      CodeAgent.analyze_run completes = (20, false) ∧
      CodeAgent.analyze_report completes =
        "Analysis reached turn limit. Check results.".data ∧
      strContains (CodeAgent.analyze_report completes) "turn limit".data = true) := by
  constructor
  · intro σ env responses ctx s
    exact chat_loop_le env responses 10 0 ctx s
  · intro completes h
    have hrun : CodeAgent.analyze_run completes = (20, false) := by
      rw [CodeAgent.analyze_run, analyze_loop_never completes h]
    have hrep : CodeAgent.analyze_report completes =
        "Analysis reached turn limit. Check results.".data := by
      rw [CodeAgent.analyze_report, hrun]
      simp
    refine ⟨hrun, hrep, ?_⟩
    rw [hrep]
    decide

/-- Claim C8 (witness): the turn bounds at the concrete always-run model
stream and the never-completing analysis. -/
theorem c8_turn_bounds_witness :
    (Agent.chat_run envU runForeverResponses [] ()).1 ≤ 10 ∧
    CodeAgent.analyze_run (fun _ => false) = (20, false) ∧
    CodeAgent.analyze_report (fun _ => false) =
      "Analysis reached turn limit. Check results.".data :=
  ⟨c8_turn_bounds.1 Unit envU runForeverResponses [] (),
    (c8_turn_bounds.2 (fun _ => false) (fun _ => rfl)).1,
    (c8_turn_bounds.2 (fun _ => false) (fun _ => rfl)).2.1⟩

/-- Claim C9 (counterexample): the claim fails on `agent.cpp` — malformed
input does NOT always yield absent.  For `x</tag>y<tag` (opening tag with no
terminating `>`), `extract_tag_content` returns `x` — text that precedes the
tag — because `npos + 1` wraps to 0 in `size_t` and the content scan restarts
at index 0.  For `<read path="/a` (no closing quote, no `>`),
`extract_attribute` returns the trailing `/a` instead of absent. -/
theorem c9_malformed_not_absent :
    Agent.extract_tag_content "x</tag>y<tag".data "tag".data = "x".data ∧
    Agent.extract_attribute "<read path=\"/a".data "read".data "path".data = "/a".data := by
  decide

/-- Claim C9 (amended): the extractors are total and yield absent (the empty
string) when the opening tag is missing; with a terminated opening tag,
`extract_tag_content` yields absent when no closing tag follows the `>`, and
`extract_attribute` yields absent when `attr="` does not occur in the opening
tag's span; when well-formed, the content is strictly the text between the
first opening tag's `>` and the next closing tag of the same name.  But for
an opening tag with no following `>`, the `size_t` wraparound restarts the
scan at index 0 and text before the tag can be returned, and
`extract_attribute` with an unterminated tag or quote returns a trailing
suffix rather than absent (see the counterexample). -/
theorem c9_extractor_semantics :
    (∀ text tag, strFindFrom text ('<' :: tag) 0 = none →
      Agent.extract_tag_content text tag = []) ∧
    (∀ text tag attr, strFindFrom text ('<' :: tag) 0 = none →
      Agent.extract_attribute text tag attr = []) ∧
    (∀ text tag i j, strFindFrom text ('<' :: tag) 0 = some i →
      strFindFrom text ['>'] i = some j →
      strFindFrom text ('<' :: '/' :: (tag ++ ['>'])) (j + 1) = none →
      Agent.extract_tag_content text tag = []) ∧
    (∀ text tag i j e, strFindFrom text ('<' :: tag) 0 = some i →
      strFindFrom text ['>'] i = some j →
      strFindFrom text ('<' :: '/' :: (tag ++ ['>'])) (j + 1) = some e →
      Agent.extract_tag_content text tag = (text.drop (j + 1)).take (e - (j + 1))) ∧
    (∀ text tag attr i j, strFindFrom text ('<' :: tag) 0 = some i →
      strFindFrom text ['>'] i = some j →
      strFindFrom ((text.drop i).take (j - i)) (attr ++ ('=' :: ['"'])) 0 = none →
      Agent.extract_attribute text tag attr = []) := by
  refine ⟨?_, ?_, ?_, ?_, ?_⟩
  · intro text tag h
    rw [Agent.extract_tag_content, h]
  · intro text tag attr h
    rw [Agent.extract_attribute, h]
  · intro text tag i j h1 h2 h3
    rw [Agent.extract_tag_content, h1]
    dsimp only []
    rw [h2]
    dsimp only []
    rw [h3]
  · intro text tag i j e h1 h2 h3
    rw [Agent.extract_tag_content, h1]
    dsimp only []
    rw [h2]
    dsimp only []
    rw [h3]
  · intro text tag attr i j h1 h2 h3
    rw [Agent.extract_attribute, h1]
    dsimp only []
    rw [h2]
    dsimp only []
    rw [h3]

/-- Claim C9 (witness): `c9_extractor_semantics` at concrete inputs — a text
with no opening `<t` tag yields absent, and the well-formed `<t>c</t>` yields
exactly the text between the opening tag's `>` (index 2) and the closing tag
(index 4). -/
theorem c9_extractor_witness :
    Agent.extract_tag_content "x".data "t".data = [] ∧
    Agent.extract_attribute "x".data "t".data "path".data = [] ∧
    Agent.extract_tag_content "<t>c</t>".data "t".data =
      (("<t>c</t>".data).drop (2 + 1)).take (4 - (2 + 1)) :=
  ⟨c9_extractor_semantics.1 "x".data "t".data (by decide),
    c9_extractor_semantics.2.1 "x".data "t".data "path".data (by decide),
    c9_extractor_semantics.2.2.2.1 "<t>c</t>".data "t".data 0 2 4
      (by decide) (by decide) (by decide)⟩

/-- Claim C10: every `Change` parsed by `parse_changes` has all leading and
trailing newline characters stripped from `old_text` and `new_text` — neither
field ever starts or ends with a newline, whatever the response; and at a
concrete block whose literal `<old>`/`<new>` contents are `"\nA\n"` and
`"\nB\n"`, the parsed fields are the stripped `"A"` and `"B"`, differing from
the literal tag content. -/
theorem c10_newline_trimming :
    (∀ resp c, c ∈ parse_changes resp →
      (∀ a, c.old_text.head? = some a → a ≠ '\n') ∧
      (∀ a, c.old_text.getLast? = some a → a ≠ '\n') ∧
      (∀ a, c.new_text.head? = some a → a ≠ '\n') ∧
      (∀ a, c.new_text.getLast? = some a → a ≠ '\n')) ∧
    parse_changes "<change file=\"f\"><old>\nA\n</old><new>\nB\n</new></change>".data =
      [⟨"f".data, "A".data, "B".data, []⟩] := by
  constructor
  · intro resp c hc
    obtain ⟨⟨o, ho⟩, ⟨n, hn⟩⟩ := parse_changes_go_trimmed resp _ 0 c hc
    rw [ho, hn]
    exact ⟨fun a ha => trimNL_head_ne ha, fun a ha => trimNL_getLast_ne ha,
      fun a ha => trimNL_head_ne ha, fun a ha => trimNL_getLast_ne ha⟩
  · decide

/-- Claim C10 (witness): the trimming statement applied to the concrete parsed
change whose raw old text was `"\nA\n"`: its parsed `old_text` is `"A"`,
whose head `'A'` is (by the theorem) not a newline. -/
theorem c10_newline_trimming_witness : ('A' : Char) ≠ '\n' :=
  (c10_newline_trimming.1
      "<change file=\"f\"><old>\nA\n</old><new>\nB\n</new></change>".data
      ⟨"f".data, "A".data, "B".data, []⟩ (by decide)).1 'A' (by decide)
